import Mathlib

/-!
Verification of the rules engine in `rules_engine.py`.

The development shallowly embeds the Python code: Python values that can flow
through the engine (metric values, parsed `value_exact` cells) are modelled by
the inductive type `Value`; Python floats are modelled as exact rationals
(`Rat`); Python exceptions are modelled by `Except PyErr`, where `PyErr`
records the exception class name and message.  File-system presence of a CSV
table is modelled by an `Option` of the parsed row list, and a provider
adapter (`get_metric`) by a pure function returning `Except PyErr Value`.
-/

namespace RulesEngine

/-- A Python exception: class name (e.g. `"ValueError"`) and message. -/
structure PyErr where
  ty : String
  msg : String
deriving Repr, DecidableEq

/-- A Python value as it can appear as a metric value or a parsed
`value_exact` cell: `None`, `bool`, a number (`int`/`float` collapsed into an
exact rational), a string, or a list. -/
inductive Value where
  | null : Value
  | bool (b : Bool) : Value
  | num (q : Rat) : Value
  | str (s : String) : Value
  | list (l : List Value) : Value
deriving Repr

mutual
/-- Python `==` between two `Value`s: `None == None`, numeric cross-kind
equality between `bool` and numbers (`True == 1`), strings by content, lists
elementwise; all other cross-kind comparisons are unequal. -/
def Value.pyEq : Value → Value → Bool
  | .null, .null => true
  | .bool a, .bool b => a == b
  | .bool a, .num q => (if a then (1 : Rat) else 0) == q
  | .num q, .bool a => q == (if a then (1 : Rat) else 0)
  | .num a, .num b => a == b
  | .str a, .str b => a == b
  | .list a, .list b => Value.pyEqList a b
  | _, _ => false

/-- Elementwise Python `==` on lists of values. -/
def Value.pyEqList : List Value → List Value → Bool
  | [], [] => true
  | x :: xs, y :: ys => Value.pyEq x y && Value.pyEqList xs ys
  | _, _ => false
end

/-- Python truthiness, `bool(v)`: `None`, `False`, zero, the empty string and
the empty list are falsy; everything else is truthy. -/
def Value.truthy : Value → Bool
  | .null => false
  | .bool b => b
  | .num q => !(q == 0)
  | .str s => !(s == "")
  | .list l => !l.isEmpty

/-- Folds a list of decimal digit characters into a natural number. -/
def digitsToNat (l : List Char) : Nat :=
  l.foldl (fun n c => n * 10 + (c.toNat - '0'.toNat)) 0

/-- Python `s.strip()`: drop leading and trailing whitespace.  Implemented
over the character list so that it evaluates by kernel reduction. -/
def pyStrip (s : String) : String :=
  ⟨((s.data.dropWhile Char.isWhitespace).reverse.dropWhile Char.isWhitespace).reverse⟩

/-- Python `s.upper()` for the ASCII letters relevant to the rule tables. -/
def pyUpper (s : String) : String :=
  ⟨s.data.map Char.toUpper⟩

/-- Python `s.split(",")`. -/
def splitComma (s : String) : List String :=
  (s.data.foldr
    (fun c acc =>
      match acc with
      | [] => [[c]]
      | g :: gs => if c = ',' then [] :: g :: gs else (c :: g) :: gs)
    [[]]).map (fun g => String.mk g)

/-- Python `float(s)` on a string: optional surrounding whitespace, optional
sign, a decimal mantissa with optional fractional part, and an optional
decimal exponent.  Non-finite literals (`inf`, `nan`) and digit-group
underscores are outside the model (they return `none` here); no claim under
verification depends on them. -/
def pyParseFloat (s : String) : Option Rat :=
  let cs := (pyStrip s).data
  let signAndRest : Rat × List Char :=
    match cs with
    | '+' :: rest => (1, rest)
    | '-' :: rest => (-1, rest)
    | _ => (1, cs)
  let sign := signAndRest.1
  let afterSign := signAndRest.2
  let intPart := afterSign.takeWhile (·.isDigit)
  let afterInt := afterSign.dropWhile (·.isDigit)
  let fracAndRest : List Char × List Char :=
    match afterInt with
    | '.' :: rest => (rest.takeWhile (·.isDigit), rest.dropWhile (·.isDigit))
    | _ => ([], afterInt)
  let fracPart := fracAndRest.1
  let afterFrac := fracAndRest.2
  if intPart.isEmpty && fracPart.isEmpty then none
  else
    let mant : Rat := (digitsToNat (intPart ++ fracPart) : Nat)
    let scale : Nat := fracPart.length
    match afterFrac with
    | [] => some (sign * mant / (10 : Rat) ^ scale)
    | e :: rest =>
      if e == 'e' || e == 'E' then
        let esignAndRest : Int × List Char :=
          match rest with
          | '+' :: r => (1, r)
          | '-' :: r => (-1, r)
          | _ => (1, rest)
        let edigits := esignAndRest.2.takeWhile (·.isDigit)
        let leftover := esignAndRest.2.dropWhile (·.isDigit)
        if edigits.isEmpty || !leftover.isEmpty then none
        else
          some (sign * mant * (10 : Rat) ^ (esignAndRest.1 * (digitsToNat edigits : Int))
                / (10 : Rat) ^ scale)
      else none

/-- Python `float(v)` on a `Value`: numbers pass through, booleans become
`1.0`/`0.0`, strings are parsed (raising `ValueError` on failure), `None` and
lists raise `TypeError`. -/
def pyFloatE : Value → Except PyErr Rat
  | .num q => .ok q
  | .bool b => .ok (if b then 1 else 0)
  | .str s =>
    match pyParseFloat s with
    | some q => .ok q
    | none => .error ⟨"ValueError", "could not convert string to float: " ++ s⟩
  | .null => .error ⟨"TypeError", "float() argument must be a string or a real number, not NoneType"⟩
  | .list _ => .error ⟨"TypeError", "float() argument must be a string or a real number, not list"⟩

/-- The numeric reading Python order comparisons give a value: numbers are
themselves, booleans count as `1`/`0`; other values have no numeric reading
(comparing them against a float raises). -/
def numVal : Value → Option Rat
  | .num q => some q
  | .bool b => some (if b then 1 else 0)
  | _ => none

/-- Python `v >= bound` where `bound` is a float: numeric for numbers and
booleans, `TypeError` for strings, lists and `None`. -/
def pyGeFloat (v : Value) (bound : Rat) : Except PyErr Bool :=
  match v with
  | .num q => .ok (decide (bound ≤ q))
  | .bool b => .ok (decide (bound ≤ (if b then (1 : Rat) else 0)))
  | .str _ => .error ⟨"TypeError", "not supported between instances of str and float"⟩
  | .list _ => .error ⟨"TypeError", "not supported between instances of list and float"⟩
  | .null => .error ⟨"TypeError", "not supported between instances of NoneType and float"⟩

/-- Python `v <= bound` where `bound` is a float. -/
def pyLeFloat (v : Value) (bound : Rat) : Except PyErr Bool :=
  match v with
  | .num q => .ok (decide (q ≤ bound))
  | .bool b => .ok (decide ((if b then (1 : Rat) else 0) ≤ bound))
  | .str _ => .error ⟨"TypeError", "not supported between instances of str and float"⟩
  | .list _ => .error ⟨"TypeError", "not supported between instances of list and float"⟩
  | .null => .error ⟨"TypeError", "not supported between instances of NoneType and float"⟩

/-- One row of the atomic rules table (`Rule` dataclass in `rules_engine.py`).
`value_exact` is a Python value; Python `None` is `Value.null`. -/
structure Rule where
  id : String
  category : String
  label : String
  metric : String
  operator : String
  value_low : Option Rat
  value_high : Option Rat
  value_exact : Value
  unit : Option String
  window_value : Option Int
  window_unit : Option String
  weight : Rat
  is_gate : Bool
deriving Repr

/-- One row of the business rules table (`BusinessRuleOption` dataclass). -/
structure BusinessRuleOption where
  source : String
  group_id : String
  parent_id : Option String
  priority : Option Int
  match_type : Option String
  category : String
  business_rule_label : String
  likert_value : Int
  likert_label : String
  all_of : List String
  any_of : List String
  none_of : List String
  threshold_attr : Option String
  weight : Rat
deriving Repr

/-- One entry of the atomic evaluation log (a Python dict in the source).
Error entries produced when `get_metric` raises carry `error` and
`exception_type` and omit `operator`/`thresholds`/`window`/`is_gate`; ordinary
entries do the reverse.  Absent dict keys are `none`. -/
structure LogEntry where
  id : String
  category : String
  label : String
  metric : String
  matched : Bool
  weight_applied : Rat
  metric_value : Value
  operator : Option String := none
  thresholds : Option (Option Rat × Option Rat × Value) := none
  window : Option (Option Int × Option String) := none
  is_gate : Option Bool := none
  error : Option String := none
  exception_type : Option String := none
deriving Repr

/-- The log entry appended when `provider.get_metric` raises
(`rules_engine.py` lines 519-531). -/
def mkErrorEntry (r : Rule) (e : PyErr) : LogEntry :=
  { id := r.id, category := r.category, label := r.label, metric := r.metric,
    matched := false, weight_applied := 0, metric_value := .null,
    error := some e.msg, exception_type := some e.ty }

/-- The log entry appended after a successful operator evaluation
(`rules_engine.py` lines 595-614). -/
def mkOkEntry (r : Rule) (v : Value) (m : Bool) (applied : Rat) : LogEntry :=
  { id := r.id, category := r.category, label := r.label, metric := r.metric,
    matched := m, weight_applied := applied, metric_value := v,
    operator := some r.operator,
    thresholds := some (r.value_low, r.value_high, r.value_exact),
    window := some (r.window_value, r.window_unit),
    is_gate := some r.is_gate }

/-- The target preprocessing shared by the `EQ`/`NE` branches: a string
`value_exact` that strips-and-uppercases to `TRUE`/`FALSE` is replaced by the
corresponding boolean (`rules_engine.py` lines 543-547). -/
def coerceBoolStr (v : Value) : Value :=
  match v with
  | .str s =>
    let t := pyUpper (pyStrip s)
    if t = "TRUE" then .bool true
    else if t = "FALSE" then .bool false
    else .str s
  | w => w

/-- The numeric comparison performed in the `LT`/`LTE`/`GT`/`GTE` branch; the
final `else` of the Python chain is `GTE`. -/
def cmpNum (op : String) (mv thr : Rat) : Bool :=
  if op = "LT" then decide (mv < thr)
  else if op = "LTE" then decide (mv ≤ thr)
  else if op = "GT" then decide (thr < mv)
  else decide (thr ≤ mv)

/-- Operator dispatch of `evaluate_rules` (`rules_engine.py` lines 533-582),
computing `matched` for one rule from the metric value.  `Except.error`
models an exception escaping the match computation (which the Python code
does not catch): `float(rule.value_exact)` on a non-numeric string, or an
order comparison between a non-numeric metric value and a set bound. -/
def evalMatched (r : Rule) (v : Value) : Except PyErr Bool :=
  if r.operator = "EXISTS" then .ok v.truthy
  else if r.operator = "MISSING" then .ok (!v.truthy)
  else if r.operator = "EQ" then .ok (Value.pyEq v (coerceBoolStr r.value_exact))
  else if r.operator = "NE" then .ok (!Value.pyEq v (coerceBoolStr r.value_exact))
  else if r.operator = "LT" ∨ r.operator = "LTE" ∨ r.operator = "GT" ∨ r.operator = "GTE" then
    match (pyFloatE v).toOption, r.value_exact with
    | none, _ => .ok false
    | some _, .null => .ok false
    | some mv, ve => (pyFloatE ve).map (fun thr => cmpNum r.operator mv thr)
  else if r.operator = "RANGE" ∨ r.operator = "BETWEEN" then do
    let lowOk ← match r.value_low with
      | none => pure true
      | some lo => match v with
        | .null => pure false
        | w => pyGeFloat w lo
    let highOk ← match r.value_high with
      | none => pure true
      | some hi => match v with
        | .null => pure false
        | w => pyLeFloat w hi
    pure (lowOk && highOk)
  else .ok false

/-- A provider adapter: the pure model of `get_metric(metric, window_value,
window_unit)`, returning a value or raising. -/
def Adapter : Type := String → Option Int → Option String → Except PyErr Value

/-- Embedding of `evaluate_rules` (`rules_engine.py` lines 512-616): walk the
rules in order; an adapter exception yields an error log entry with zero
weight and the run continues; an exception inside the operator dispatch
propagates out of the whole call.  The returned score is the sum of applied
weights (the Python left-to-right accumulation of the same addends). -/
def evaluate_rules (adapter : Adapter) : List Rule → Except PyErr (Rat × List LogEntry)
  | [] => .ok (0, [])
  | r :: rest =>
    match adapter r.metric r.window_value r.window_unit with
    | .error e =>
      (evaluate_rules adapter rest).map (fun sl => (sl.1, mkErrorEntry r e :: sl.2))
    | .ok v => do
      let m ← evalMatched r v
      let applied := if m then r.weight else 0
      let sl ← evaluate_rules adapter rest
      pure (applied + sl.1, mkOkEntry r v m applied :: sl.2)

/-- The weight a single rule contributes to the total under a given adapter:
zero when the adapter raises or the rule does not match; the rule's weight
when it matches.  (When the operator dispatch itself raises, the whole run
raises and no total is produced; the value here is irrelevant then.) -/
def ruleScore (adapter : Adapter) (r : Rule) : Rat :=
  match adapter r.metric r.window_value r.window_unit with
  | .error _ => 0
  | .ok v =>
    match evalMatched r v with
    | .ok m => if m then r.weight else 0
    | .error _ => 0

/-- One entry of the business evaluation log: the `chosen` dict
(`rules_engine.py` lines 148-155). -/
structure ChosenInfo where
  likert_value : Int
  likert_label : String
  weight : Rat
  all_of : List String
  any_of : List String
  none_of : List String
deriving Repr, DecidableEq

/-- One entry of the business evaluation log (`rules_engine.py` lines
144-163); `satisfied_options` lists `(likert_value, likert_label, weight)`
triples in the sorted order the code produces. -/
structure BRLogEntry where
  group_id : String
  label : String
  category : String
  chosen : Option ChosenInfo
  satisfied_options : List (Int × String × Rat)
deriving Repr, DecidableEq

/-- The set of atomic rule ids whose log entry matched (`rules_engine.py`
line 111), modelled as a list queried by membership. -/
def matchedAtomicIds (alog : List LogEntry) : List String :=
  (alog.filter (·.matched)).map (·.id)

/-- The inner predicate `option_satisfied` (`rules_engine.py` lines 121-131):
each of the three id lists constrains satisfaction only when non-empty. -/
def option_satisfied (ids : List String) (o : BusinessRuleOption) : Bool :=
  (o.all_of.isEmpty || o.all_of.all (fun i => ids.contains i)) &&
  (o.any_of.isEmpty || o.any_of.any (fun i => ids.contains i)) &&
  (o.none_of.isEmpty || !(o.none_of.any (fun i => ids.contains i)))

/-- The Python sort key `(o.likert_value, o.weight, -(o.priority or 0))`
(`rules_engine.py` line 138), as a lexicographically ordered triple.  A
missing priority contributes `0`, exactly as Python's `or`. -/
def sortKey (o : BusinessRuleOption) : Int ×ₗ Rat ×ₗ Int :=
  toLex (o.likert_value, toLex (o.weight, -(o.priority.getD 0)))

/-- Stable descending insertion: `x` is placed before the first element whose
key is not greater than `x`'s.  Together with `sortDesc` this is the unique
stable descending sort, the behaviour of Python's `list.sort(key=...,
reverse=True)`. -/
def insertDesc {α β : Type} [LinearOrder β] (key : α → β) (x : α) : List α → List α
  | [] => [x]
  | y :: ys => if key x < key y then y :: insertDesc key x ys else x :: y :: ys

/-- Stable descending sort by key (model of `satisfied.sort(key=...,
reverse=True)` at `rules_engine.py` line 138). -/
def sortDesc {α β : Type} [LinearOrder β] (key : α → β) : List α → List α
  | [] => []
  | x :: xs => insertDesc key x (sortDesc key xs)

/-- Insertion-order list of distinct `group_id`s, the iteration order of the
Python dict built with `setdefault` (`rules_engine.py` lines 114-116). -/
def groupKeys (opts : List BusinessRuleOption) : List String :=
  opts.foldl (fun acc o => if acc.contains o.group_id then acc else acc ++ [o.group_id]) []

/-- The options of one group, in input order (the order `setdefault`/`append`
produces). -/
def groupOptions (opts : List BusinessRuleOption) (gid : String) : List BusinessRuleOption :=
  opts.filter (fun o => o.group_id == gid)

/-- The group's satisfied options in input order (`rules_engine.py` line 135). -/
def satisfiedOptions (ids : List String) (opts : List BusinessRuleOption) (gid : String) :
    List BusinessRuleOption :=
  (groupOptions opts gid).filter (option_satisfied ids)

/-- The group's satisfied options after the in-place descending sort. -/
def satisfiedSorted (ids : List String) (opts : List BusinessRuleOption) (gid : String) :
    List BusinessRuleOption :=
  sortDesc sortKey (satisfiedOptions ids opts gid)

/-- The chosen option of a group: the head of the sorted satisfied list, if
any (`rules_engine.py` lines 136-139). -/
def groupChosen (ids : List String) (opts : List BusinessRuleOption) (gid : String) :
    Option BusinessRuleOption :=
  (satisfiedSorted ids opts gid).head?

/-- Projection of the chosen option into the log's `chosen` dict. -/
def chosenInfoOf (o : BusinessRuleOption) : ChosenInfo :=
  ⟨o.likert_value, o.likert_label, o.weight, o.all_of, o.any_of, o.none_of⟩

/-- The business log entry of one group (`rules_engine.py` lines 141-163):
label and category come from the first option of the group with a non-empty
(truthy) value. -/
def groupEntry (ids : List String) (opts : List BusinessRuleOption) (gid : String) :
    BRLogEntry :=
  let options := groupOptions opts gid
  { group_id := gid
    label := ((options.find? (fun o => !(o.business_rule_label == ""))).map
      (·.business_rule_label)).getD ""
    category := ((options.find? (fun o => !(o.category == ""))).map (·.category)).getD ""
    chosen := (groupChosen ids opts gid).map chosenInfoOf
    satisfied_options := (satisfiedSorted ids opts gid).map
      (fun o => (o.likert_value, o.likert_label, o.weight)) }

/-- Embedding of `evaluate_business_rules` (`rules_engine.py` lines 103-168):
an empty option list short-circuits to `(0, [])`; otherwise one log entry per
group in first-appearance order, and the score is the sum of the chosen
options' weights. -/
def evaluate_business_rules (alog : List LogEntry) (opts : List BusinessRuleOption) :
    Rat × List BRLogEntry :=
  if opts.isEmpty then (0, [])
  else
    let ids := matchedAtomicIds alog
    let keys := groupKeys opts
    (keys.foldl (fun acc gid => acc + ((groupChosen ids opts gid).map (·.weight)).getD 0) 0,
     keys.map (groupEntry ids opts))

/-- A parsed CSV row as produced by `csv.DictReader`: an association list
from column name to cell text. -/
def Row : Type := List (String × String)

/-- Python `row.get(k)`: `none` when the column is absent. -/
def rowGet (row : Row) (k : String) : Option String :=
  (row.find? (fun p => p.1 == k)).map (·.2)

/-- Python `row[k]`: raises `KeyError` when the column is absent. -/
def rowItem (row : Row) (k : String) : Except PyErr String :=
  match rowGet row k with
  | some v => .ok v
  | none => .error ⟨"KeyError", k⟩

/-- Python `int(s)` on a string: optional surrounding whitespace, optional
sign, decimal digits only. -/
def pyParseInt (s : String) : Option Int :=
  let cs := (pyStrip s).data
  let signAndRest : Int × List Char :=
    match cs with
    | '+' :: rest => (1, rest)
    | '-' :: rest => (-1, rest)
    | _ => (1, cs)
  let ds := signAndRest.2
  if ds.isEmpty || !(ds.all (·.isDigit)) then none
  else some (signAndRest.1 * (digitsToNat ds : Int))

/-- The `value_exact` cell parser (`rules_engine.py` lines 181-194, repeated
verbatim at lines 415-427): the cell is first stripped; an empty result is
`None`; `TRUE`/`FALSE` (case-insensitively) become booleans; otherwise a
successful `float` parse wins, and on `ValueError` the stripped string is
kept. -/
def parseValueExact (cell : Option String) : Value :=
  let raw := pyStrip (cell.getD "")
  if raw = "" then .null
  else
    let upper := pyUpper raw
    if upper = "TRUE" then .bool true
    else if upper = "FALSE" then .bool false
    else
      match pyParseFloat raw with
      | some q => .num q
      | none => .str raw

/-- A numeric cell guarded by `row.get(k) and row[k].strip()`: absent, empty
or whitespace-only cells give `none`; anything else must parse as a float or
the loader raises `ValueError`. -/
def floatField (cell : Option String) : Except PyErr (Option Rat) :=
  match cell with
  | none => .ok none
  | some s =>
    if s = "" || pyStrip s = "" then .ok none
    else
      match pyParseFloat s with
      | some q => .ok (some q)
      | none => .error ⟨"ValueError", "could not convert string to float: " ++ s⟩

/-- An integer cell with the same guard as `floatField`, parsed by `int`. -/
def intField (cell : Option String) : Except PyErr (Option Int) :=
  match cell with
  | none => .ok none
  | some s =>
    if s = "" || pyStrip s = "" then .ok none
    else
      match pyParseInt s with
      | some n => .ok (some n)
      | none => .error ⟨"ValueError", "invalid literal for int with base 10: " ++ s⟩

/-- Python `(row.get(k) or "").strip() or None`. -/
def strOrNone (cell : Option String) : Option String :=
  let t := pyStrip (cell.getD "")
  if t = "" then none else some t

/-- `_parse_id_list` (`rules_engine.py` lines 59-64): comma-split, trim,
drop empty tokens; a falsy cell gives the empty list. -/
def parse_id_list (cell : Option String) : List String :=
  match cell with
  | none => []
  | some s =>
    if s = "" then []
    else ((splitComma s).map pyStrip).filter (fun v => !(v == ""))

/-- One row of the atomic rules CSV parsed into a `Rule` (`rules_engine.py`
lines 180-211).  The five unguarded `row[...]` columns raise `KeyError` when
absent; numeric cells raise `ValueError` when unparsable. -/
def parseRuleRow (row : Row) : Except PyErr Rule := do
  let id ← rowItem row "id"
  let category ← rowItem row "category"
  let label ← rowItem row "label"
  let metric ← rowItem row "metric"
  let operator ← rowItem row "operator"
  let vlow ← floatField (rowGet row "value_low")
  let vhigh ← floatField (rowGet row "value_high")
  let wval ← intField (rowGet row "window_value")
  let w ← floatField (rowGet row "weight")
  pure
    { id := pyStrip id, category := pyStrip category, label := pyStrip label,
      metric := pyStrip metric, operator := pyUpper (pyStrip operator),
      value_low := vlow, value_high := vhigh,
      value_exact := parseValueExact (rowGet row "value_exact"),
      unit := strOrNone (rowGet row "unit"),
      window_value := wval,
      window_unit := strOrNone (rowGet row "window_unit"),
      weight := w.getD 0,
      is_gate := pyUpper (pyStrip ((rowGet row "is_gate").getD "FALSE")) = "TRUE" }

/-- An integer cell guarded only by cell truthiness (used for
`likert_value`): absent or empty gives the default `0`. -/
def likertField (cell : Option String) : Except PyErr Int :=
  match cell with
  | none => .ok 0
  | some s =>
    if s = "" then .ok 0
    else
      match pyParseInt s with
      | some n => .ok n
      | none => .error ⟨"ValueError", "invalid literal for int with base 10: " ++ s⟩

/-- One row of the business rules CSV parsed into a `BusinessRuleOption`
(`rules_engine.py` lines 81-99). -/
def parseBusinessRow (row : Row) : Except PyErr BusinessRuleOption := do
  let prio ← intField (rowGet row "priority")
  let likert ← likertField (rowGet row "likert_value")
  let w ← floatField (rowGet row "weight")
  pure
    { source := pyStrip ((rowGet row "source").getD ""),
      group_id := pyStrip ((rowGet row "id").getD ""),
      parent_id := strOrNone (rowGet row "parentId"),
      priority := prio,
      match_type := strOrNone (rowGet row "match_type"),
      category := pyStrip ((rowGet row "category").getD ""),
      business_rule_label := pyStrip ((rowGet row "businessRuleLabel").getD ""),
      likert_value := likert,
      likert_label := pyStrip ((rowGet row "likert_label").getD ""),
      all_of := parse_id_list (rowGet row "ALL_OF"),
      any_of := parse_id_list (rowGet row "ANY_OF"),
      none_of := parse_id_list (rowGet row "NONE_OF"),
      threshold_attr := strOrNone (rowGet row "threshold_attr"),
      weight := w.getD 0 }

/-- Embedding of `load_rules_from_csv` (`rules_engine.py` lines 171-212).
The `Option` argument models the file system: `none` when no rules file
exists for the provider, in which case the Python code raises
`FileNotFoundError` before reading anything. -/
def load_rules_from_csv (rowsIfPresent : Option (List Row)) : Except PyErr (List Rule) :=
  match rowsIfPresent with
  | none => .error ⟨"FileNotFoundError", "Rules file not found for provider"⟩
  | some rows => rows.mapM parseRuleRow

/-- Embedding of `load_business_rules_from_csv` (`rules_engine.py` lines
67-100): a missing business-rules file returns the empty list instead of
raising. -/
def load_business_rules_from_csv (rowsIfPresent : Option (List Row)) :
    Except PyErr (List BusinessRuleOption) :=
  match rowsIfPresent with
  | none => .ok []
  | some rows => rows.mapM parseBusinessRow

/-! ## Concrete fixtures used by witnesses and counterexamples -/

/-- A business rule option fixture with the given group, label, likert value,
weight and priority; the condition lists are empty, so the option is always
satisfied. -/
def exOpt (gid lab : String) (lk : Int) (w : Rat) (prio : Option Int) : BusinessRuleOption :=
  { source := "", group_id := gid, parent_id := none, priority := prio,
    match_type := none, category := "cat", business_rule_label := "lbl",
    likert_value := lk, likert_label := lab, all_of := [], any_of := [],
    none_of := [], threshold_attr := none, weight := w }

/-- An atomic rule fixture with the given operator, bounds, exact value and
weight. -/
def exRule (op : String) (lo hi : Option Rat) (ve : Value) (w : Rat) : Rule :=
  { id := "r1", category := "c", label := "l", metric := "m", operator := op,
    value_low := lo, value_high := hi, value_exact := ve,
    unit := none, window_value := none, window_unit := none, weight := w, is_gate := false }

/-- An adapter returning the same value for every metric. -/
def constAdapter (v : Value) : Adapter := fun _ _ _ => .ok v

/-- An adapter that raises on the metric named `bad` and returns `1`
otherwise. -/
def exAdapter : Adapter := fun m _ _ =>
  if m = "bad" then .error ⟨"RuntimeError", "boom"⟩ else .ok (.num 1)

/-- A rule whose metric `exAdapter` fails on. -/
def exBadRule : Rule := { exRule "EXISTS" none none .null 7 with metric := "bad" }

/-- A CSV row fixture whose `value_exact` cell carries surrounding
whitespace. -/
def exRow : Row :=
  [("id", "r1"), ("category", "c"), ("label", "l"), ("metric", "m"),
   ("operator", "lt"), ("value_exact", " abc "), ("weight", "2.5")]

/-! ## Properties of the stable descending sort -/

theorem insertDesc_ne_nil {α β : Type} [LinearOrder β] (key : α → β) (x : α) (l : List α) :
    insertDesc key x l ≠ [] := by
  cases l with
  | nil => simp [insertDesc]
  | cons y ys =>
    simp only [insertDesc]
    split <;> simp

theorem sortDesc_eq_nil_iff {α β : Type} [LinearOrder β] (key : α → β) (l : List α) :
    sortDesc key l = [] ↔ l = [] := by
  cases l with
  | nil => simp [sortDesc]
  | cons x xs => simp [sortDesc, insertDesc_ne_nil]

/-- The head of the stable descending sort is the earliest maximum of the
input: the input splits as `l₁ ++ x :: l₂` where everything before `x` has a
strictly smaller key and nothing after it has a strictly larger key. -/
theorem sortDesc_head_earliestMax {α β : Type} [LinearOrder β] (key : α → β) :
    ∀ (l : List α) (x : α), (sortDesc key l).head? = some x →
      ∃ l₁ l₂, l = l₁ ++ x :: l₂ ∧ (∀ y ∈ l₁, key y < key x) ∧ (∀ y ∈ l₂, ¬ key x < key y) := by
  intro l
  induction l with
  | nil => intro x h; simp [sortDesc] at h
  | cons a as ih =>
    intro x h
    rw [sortDesc] at h
    cases hs : sortDesc key as with
    | nil =>
      rw [hs] at h
      simp only [insertDesc, List.head?] at h
      obtain rfl : a = x := by injection h
      obtain rfl : as = [] := (sortDesc_eq_nil_iff key as).mp hs
      exact ⟨[], [], rfl, by simp, by simp⟩
    | cons z zs =>
      rw [hs] at h
      obtain ⟨m₁, m₂, hm, hlt, hge⟩ := ih z (by rw [hs]; rfl)
      simp only [insertDesc] at h
      by_cases hb : key a < key z
      · rw [if_pos hb] at h
        obtain rfl : z = x := by injection h
        refine ⟨a :: m₁, m₂, by rw [hm]; rfl, ?_, hge⟩
        intro y hy
        rcases List.mem_cons.mp hy with rfl | hy
        · exact hb
        · exact hlt y hy
      · rw [if_neg hb] at h
        obtain rfl : a = x := by injection h
        refine ⟨[], as, by simp, by simp, ?_⟩
        intro y hy
        rw [hm] at hy
        rcases List.mem_append.mp hy with hy | hy
        · exact fun hlt' => absurd (lt_trans hlt' (hlt y hy)) hb
        · rcases List.mem_cons.mp hy with rfl | hy
          · exact fun hlt' => absurd hlt' hb
          · intro hlt'
            exact absurd (lt_of_lt_of_le hlt' (not_lt.mp (hge y hy))) hb

/-- Unfolds the lexicographic comparison of sort keys: `sortKey o ≤ sortKey c`
says the code prefers `c` to `o` (or ties): higher likert, then higher
weight, then lower numeric priority. -/
theorem sortKey_le_iff (o c : BusinessRuleOption) :
    sortKey o ≤ sortKey c ↔
      o.likert_value < c.likert_value ∨
      (o.likert_value = c.likert_value ∧ o.weight < c.weight) ∨
      (o.likert_value = c.likert_value ∧ o.weight = c.weight ∧
        c.priority.getD 0 ≤ o.priority.getD 0) := by
  unfold sortKey
  rw [Prod.Lex.le_iff]
  constructor
  · rintro (h | ⟨h1, h2⟩)
    · exact Or.inl h
    · rw [Prod.Lex.le_iff] at h2
      rcases h2 with h2 | ⟨h2, h3⟩
      · exact Or.inr (Or.inl ⟨h1, h2⟩)
      · exact Or.inr (Or.inr ⟨h1, h2, by exact neg_le_neg_iff.mp h3⟩)
  · rintro (h | ⟨h1, h2⟩ | ⟨h1, h2, h3⟩)
    · exact Or.inl h
    · exact Or.inr ⟨h1, (Prod.Lex.le_iff _ _).mpr (Or.inl h2)⟩
    · exact Or.inr ⟨h1, (Prod.Lex.le_iff _ _).mpr (Or.inr ⟨h2, neg_le_neg h3⟩)⟩

/-- Every entry of the business log is the entry of one discovered group. -/
theorem mem_business_log (alog : List LogEntry) (opts : List BusinessRuleOption)
    (entry : BRLogEntry) (hm : entry ∈ (evaluate_business_rules alog opts).2) :
    ∃ gid ∈ groupKeys opts, entry = groupEntry (matchedAtomicIds alog) opts gid := by
  unfold evaluate_business_rules at hm
  split at hm
  · simp at hm
  · simp only [List.mem_map] at hm
    obtain ⟨gid, hgid, hentry⟩ := hm
    exact ⟨gid, hgid, hentry.symm⟩

/-- The chosen option of a group entry is an earliest maximum of the group's
satisfied options under `sortKey`. -/
theorem chosen_spec (alog : List LogEntry) (opts : List BusinessRuleOption)
    (entry : BRLogEntry) (hm : entry ∈ (evaluate_business_rules alog opts).2)
    (ci : ChosenInfo) (hc : entry.chosen = some ci) :
    ∃ l₁ c l₂,
      satisfiedOptions (matchedAtomicIds alog) opts entry.group_id = l₁ ++ c :: l₂ ∧
      ci = chosenInfoOf c ∧
      (∀ o ∈ l₁, sortKey o < sortKey c) ∧
      (∀ o ∈ l₂, ¬ sortKey c < sortKey o) := by
  obtain ⟨gid, _, rfl⟩ := mem_business_log alog opts entry hm
  simp only [groupEntry, Option.map_eq_some', groupChosen, satisfiedSorted] at hc
  obtain ⟨c, hc', rfl⟩ := hc
  obtain ⟨l₁, l₂, hsplit, hlt, hge⟩ := sortDesc_head_earliestMax sortKey _ c hc'
  exact ⟨l₁, c, l₂, hsplit, rfl, hlt, hge⟩

/-! ## Claims C1 and C10: business group winner selection -/

/-- C1 (amended): among the satisfied options of a business group, the chosen
winner is maximal under descending `likert_value`, then descending `weight`,
then ASCENDING numeric priority: every satisfied option either has a smaller
likert value, or ties on likert with a smaller weight, or ties on both while
the winner's numeric priority (defaulting to 0 when missing) is less than or
equal to its own.  The original claim's direction "remaining ties are broken
by higher priority" is refuted by `c1_priority_counterexample`. -/
theorem c1_business_winner (alog : List LogEntry) (opts : List BusinessRuleOption)
    (entry : BRLogEntry) (hm : entry ∈ (evaluate_business_rules alog opts).2)
    (ci : ChosenInfo) (hc : entry.chosen = some ci) :
    ∃ c ∈ satisfiedOptions (matchedAtomicIds alog) opts entry.group_id,
      ci = chosenInfoOf c ∧
      ∀ o ∈ satisfiedOptions (matchedAtomicIds alog) opts entry.group_id,
        o.likert_value < c.likert_value ∨
        (o.likert_value = c.likert_value ∧ o.weight < c.weight) ∨
        (o.likert_value = c.likert_value ∧ o.weight = c.weight ∧
          c.priority.getD 0 ≤ o.priority.getD 0) := by
  obtain ⟨l₁, c, l₂, hsplit, hci, hlt, hge⟩ := chosen_spec alog opts entry hm ci hc
  refine ⟨c, ?_, hci, ?_⟩
  · rw [hsplit]
    exact List.mem_append_right _ (List.mem_cons_self _ _)
  · intro o ho
    rw [hsplit] at ho
    have hle : sortKey o ≤ sortKey c := by
      rcases List.mem_append.mp ho with h | h
      · exact le_of_lt (hlt o h)
      · rcases List.mem_cons.mp h with rfl | h
        · exact le_refl _
        · exact not_lt.mp (hge o h)
    exact (sortKey_le_iff o c).mp hle

/-- C1 witness: the spec's own example — options A(likert 3, weight 5) and
B(likert 3, weight 8), both satisfied; B is chosen by the weight tie-break. -/
theorem c1_business_winner_witness :
    ∃ entry ∈ (evaluate_business_rules [] [exOpt "g" "A" 3 5 none, exOpt "g" "B" 3 8 none]).2,
      ∃ ci, entry.chosen = some ci ∧ ci.likert_label = "B" ∧
        ∃ c ∈ satisfiedOptions (matchedAtomicIds [])
            [exOpt "g" "A" 3 5 none, exOpt "g" "B" 3 8 none] entry.group_id,
          ci = chosenInfoOf c ∧
          ∀ o ∈ satisfiedOptions (matchedAtomicIds [])
              [exOpt "g" "A" 3 5 none, exOpt "g" "B" 3 8 none] entry.group_id,
            o.likert_value < c.likert_value ∨
            (o.likert_value = c.likert_value ∧ o.weight < c.weight) ∨
            (o.likert_value = c.likert_value ∧ o.weight = c.weight ∧
              c.priority.getD 0 ≤ o.priority.getD 0) := by
  have hlog : (evaluate_business_rules [] [exOpt "g" "A" 3 5 none, exOpt "g" "B" 3 8 none]).2 =
      [groupEntry (matchedAtomicIds []) [exOpt "g" "A" 3 5 none, exOpt "g" "B" 3 8 none] "g"] := by
    with_unfolding_all rfl
  have hm : groupEntry (matchedAtomicIds []) [exOpt "g" "A" 3 5 none, exOpt "g" "B" 3 8 none] "g"
      ∈ (evaluate_business_rules [] [exOpt "g" "A" 3 5 none, exOpt "g" "B" 3 8 none]).2 := by
    rw [hlog]; exact List.mem_singleton.mpr rfl
  have hc : (groupEntry (matchedAtomicIds []) [exOpt "g" "A" 3 5 none, exOpt "g" "B" 3 8 none]
      "g").chosen = some (chosenInfoOf (exOpt "g" "B" 3 8 none)) := by
    with_unfolding_all rfl
  exact ⟨_, hm, _, hc, rfl, c1_business_winner _ _ _ hm _ hc⟩

/-- C1 counterexample to the original claim: two satisfied options in one
group tie on likert value (3) and weight (5); priorities are 1 and 2.  The
code chooses the priority-1 option (label `P1`), whereas the claim's
"remaining ties are broken by higher priority" requires the priority-2
option (label `P2`). -/
theorem c1_priority_counterexample :
    ((evaluate_business_rules []
        [exOpt "g" "P1" 3 5 (some 1), exOpt "g" "P2" 3 5 (some 2)]).2.map
      (fun e => e.chosen.map (·.likert_label))) = [some "P1"] ∧
    ((evaluate_business_rules []
        [exOpt "g" "P1" 3 5 (some 1), exOpt "g" "P2" 3 5 (some 2)]).2.map
      (fun e => e.satisfied_options.length)) = [2] ∧
    "P1" ≠ "P2" :=
  ⟨by with_unfolding_all rfl, by with_unfolding_all rfl, by decide⟩

/-- C10: the chosen option of a group is the EARLIEST maximal satisfied
option: the satisfied list (which preserves input order) splits as
`l₁ ++ c :: l₂` where every option before `c` has a strictly smaller sort
key — so an option tied with the winner cannot precede it — and no option
after `c` has a strictly larger key.  Moreover a missing priority is treated
exactly like priority 0 in the sort key. -/
theorem c10_stable_tie (alog : List LogEntry) (opts : List BusinessRuleOption)
    (entry : BRLogEntry) (hm : entry ∈ (evaluate_business_rules alog opts).2)
    (ci : ChosenInfo) (hc : entry.chosen = some ci) :
    (∃ l₁ c l₂,
      satisfiedOptions (matchedAtomicIds alog) opts entry.group_id = l₁ ++ c :: l₂ ∧
      ci = chosenInfoOf c ∧
      (∀ o ∈ l₁, sortKey o < sortKey c) ∧
      (∀ o ∈ l₂, ¬ sortKey c < sortKey o)) ∧
    ∀ o : BusinessRuleOption,
      sortKey { o with priority := none } = sortKey { o with priority := some 0 } :=
  ⟨chosen_spec alog opts entry hm ci hc, fun _ => rfl⟩

/-- C10 witness: two fully tied satisfied options (likert 3, weight 5,
priority 1, labels `A` before `B`); the earliest, `A`, is chosen. -/
theorem c10_stable_tie_witness :
    ∃ entry ∈ (evaluate_business_rules []
        [exOpt "g" "A" 3 5 (some 1), exOpt "g" "B" 3 5 (some 1)]).2,
      ∃ ci, entry.chosen = some ci ∧ ci.likert_label = "A" ∧
        ((∃ l₁ c l₂,
          satisfiedOptions (matchedAtomicIds [])
              [exOpt "g" "A" 3 5 (some 1), exOpt "g" "B" 3 5 (some 1)] entry.group_id
            = l₁ ++ c :: l₂ ∧
          ci = chosenInfoOf c ∧
          (∀ o ∈ l₁, sortKey o < sortKey c) ∧
          (∀ o ∈ l₂, ¬ sortKey c < sortKey o)) ∧
        ∀ o : BusinessRuleOption,
          sortKey { o with priority := none } = sortKey { o with priority := some 0 }) := by
  have hlog : (evaluate_business_rules []
      [exOpt "g" "A" 3 5 (some 1), exOpt "g" "B" 3 5 (some 1)]).2 =
      [groupEntry (matchedAtomicIds [])
        [exOpt "g" "A" 3 5 (some 1), exOpt "g" "B" 3 5 (some 1)] "g"] := by
    with_unfolding_all rfl
  have hm : groupEntry (matchedAtomicIds [])
      [exOpt "g" "A" 3 5 (some 1), exOpt "g" "B" 3 5 (some 1)] "g"
      ∈ (evaluate_business_rules []
        [exOpt "g" "A" 3 5 (some 1), exOpt "g" "B" 3 5 (some 1)]).2 := by
    rw [hlog]; exact List.mem_singleton.mpr rfl
  have hc : (groupEntry (matchedAtomicIds [])
      [exOpt "g" "A" 3 5 (some 1), exOpt "g" "B" 3 5 (some 1)] "g").chosen =
      some (chosenInfoOf (exOpt "g" "A" 3 5 (some 1))) := by
    with_unfolding_all rfl
  exact ⟨_, hm, _, hc, rfl, c10_stable_tie _ _ _ hm _ hc⟩

/-! ## Claim C4: EXISTS / MISSING truthiness -/

/-- C4: an `EXISTS` rule matches iff the metric value is truthy and a
`MISSING` rule matches iff it is not, where truthiness means: not null, not
boolean false, not zero, not the empty string, not the empty list. -/
theorem c4_exists_missing (r : Rule) (v : Value)
    (hop : r.operator = "EXISTS" ∨ r.operator = "MISSING") :
    evalMatched r v = .ok (if r.operator = "EXISTS" then v.truthy else !v.truthy) ∧
    (v.truthy = true ↔
      v ≠ .null ∧ v ≠ .bool false ∧ v ≠ .num 0 ∧ v ≠ .str "" ∧ v ≠ .list []) := by
  constructor
  · rcases hop with h | h <;> simp [evalMatched, h]
  · cases v with
    | null => simp [Value.truthy]
    | bool b => cases b <;> simp [Value.truthy]
    | num q => simp [Value.truthy]
    | str s => simp [Value.truthy]
    | list l => cases l <;> simp [Value.truthy]

/-- C4 witness: an `EXISTS` rule on the empty list, which is falsy. -/
theorem c4_exists_missing_witness :
    ((exRule "EXISTS" none none .null 1).operator = "EXISTS" ∨
      (exRule "EXISTS" none none .null 1).operator = "MISSING") ∧
    (evalMatched (exRule "EXISTS" none none .null 1) (.list []) =
      .ok (if (exRule "EXISTS" none none .null 1).operator = "EXISTS"
        then (Value.list []).truthy else !(Value.list []).truthy) ∧
    ((Value.list []).truthy = true ↔
      Value.list [] ≠ .null ∧ Value.list [] ≠ .bool false ∧ Value.list [] ≠ .num 0 ∧
        Value.list [] ≠ .str "" ∧ Value.list [] ≠ .list [])) :=
  ⟨Or.inl rfl, c4_exists_missing _ _ (Or.inl rfl)⟩

/-! ## Claim C9: EQ with a null target -/

/-- C9: an `EQ` rule whose `value_exact` is null matches a null metric value
(`None == None` in Python) and applies its full weight; the rest of the run
is unchanged. -/
theorem c9_eq_null (adapter : Adapter) (r : Rule) (rest : List Rule)
    (hop : r.operator = "EQ") (hex : r.value_exact = .null)
    (hm : adapter r.metric r.window_value r.window_unit = .ok .null) :
    evaluate_rules adapter (r :: rest) =
      (evaluate_rules adapter rest).map
        (fun sl => (r.weight + sl.1, mkOkEntry r .null true r.weight :: sl.2)) := by
  have hmatch : evalMatched r .null = .ok true := by
    unfold evalMatched
    rw [hop, hex]
    with_unfolding_all rfl
  simp only [evaluate_rules]
  rw [hm]
  rcases hrest : evaluate_rules adapter rest with e | sl <;>
    simp [hmatch, hrest, Except.map, Except.bind, bind, pure, Except.pure]

/-- C9 witness: a concrete `EQ` rule with empty `value_exact` cell matching a
null metric and scoring its weight 2. -/
theorem c9_eq_null_witness :
    (exRule "EQ" none none .null 2).operator = "EQ" ∧
    (exRule "EQ" none none .null 2).value_exact = .null ∧
    constAdapter .null (exRule "EQ" none none .null 2).metric
      (exRule "EQ" none none .null 2).window_value
      (exRule "EQ" none none .null 2).window_unit = .ok .null ∧
    evaluate_rules (constAdapter .null) [exRule "EQ" none none .null 2] =
      (evaluate_rules (constAdapter .null) []).map
        (fun sl => ((exRule "EQ" none none .null 2).weight + sl.1,
          mkOkEntry (exRule "EQ" none none .null 2) .null true
            (exRule "EQ" none none .null 2).weight :: sl.2)) :=
  ⟨rfl, rfl, rfl, c9_eq_null _ _ _ rfl rfl rfl⟩

/-! ## Claim C2: LT / LTE / GT / GTE coercion -/

/-- The `LT`/`LTE`/`GT`/`GTE` branch of the operator dispatch, isolated. -/
theorem evalMatched_lt_branch (r : Rule)
    (hop : r.operator = "LT" ∨ r.operator = "LTE" ∨ r.operator = "GT" ∨ r.operator = "GTE")
    (v : Value) :
    evalMatched r v =
      match (pyFloatE v).toOption, r.value_exact with
      | none, _ => .ok false
      | some _, .null => .ok false
      | some mv, ve => (pyFloatE ve).map (fun thr => cmpNum r.operator mv thr) := by
  rcases hop with h | h | h | h <;>
    (unfold evalMatched; rw [h]; with_unfolding_all rfl)

/-- C2 (amended): for `LT`/`LTE`/`GT`/`GTE` rules, the metric value is
coerced to float with failures caught: a non-coercible metric value or a null
`value_exact` yields no match without raising; and whenever `value_exact`
itself coerces to a float the comparison returns normally, with the expected
ordering result.  The original claim's "never raises for any value_exact" is
refuted by `c2_raise_counterexample`: a non-numeric string `value_exact`
raises `ValueError`. -/
theorem c2_lt_family (r : Rule)
    (hop : r.operator = "LT" ∨ r.operator = "LTE" ∨ r.operator = "GT" ∨ r.operator = "GTE") :
    (∀ v, (pyFloatE v).toOption = none → evalMatched r v = .ok false) ∧
    (r.value_exact = .null → ∀ v, evalMatched r v = .ok false) ∧
    (∀ thr, pyFloatE r.value_exact = .ok thr → ∀ v,
      evalMatched r v =
        .ok (((pyFloatE v).toOption.map (fun mv => cmpNum r.operator mv thr)).getD false)) := by
  refine ⟨?_, ?_, ?_⟩
  · intro v h2
    rw [evalMatched_lt_branch r hop v, h2]
  · intro hex v
    rw [evalMatched_lt_branch r hop v, hex]
    cases hmv : (pyFloatE v).toOption with
    | none => rfl
    | some mv => rfl
  · intro thr hthr v
    rw [evalMatched_lt_branch r hop v]
    cases hmv : (pyFloatE v).toOption with
    | none => rfl
    | some mv =>
      cases hve : r.value_exact with
      | null => rw [hve] at hthr; cases hthr
      | bool b =>
        rw [hve] at hthr
        have hmap : (pyFloatE (Value.bool b)).map (fun t => cmpNum r.operator mv t) =
            Except.ok (cmpNum r.operator mv thr) := by rw [hthr]; rfl
        exact hmap
      | num q =>
        rw [hve] at hthr
        have hmap : (pyFloatE (Value.num q)).map (fun t => cmpNum r.operator mv t) =
            Except.ok (cmpNum r.operator mv thr) := by rw [hthr]; rfl
        exact hmap
      | str s =>
        rw [hve] at hthr
        have hmap : (pyFloatE (Value.str s)).map (fun t => cmpNum r.operator mv t) =
            Except.ok (cmpNum r.operator mv thr) := by rw [hthr]; rfl
        exact hmap
      | list l => rw [hve] at hthr; cases hthr

/-- C2 witness: a `GTE` rule with numeric threshold 3 evaluated at metric
values that fail coercion (`None`) and that succeed (`3.5`). -/
theorem c2_lt_family_witness :
    ((exRule "GTE" none none (.num 3) 2).operator = "LT" ∨
      (exRule "GTE" none none (.num 3) 2).operator = "LTE" ∨
      (exRule "GTE" none none (.num 3) 2).operator = "GT" ∨
      (exRule "GTE" none none (.num 3) 2).operator = "GTE") ∧
    (∀ v, (pyFloatE v).toOption = none →
      evalMatched (exRule "GTE" none none (.num 3) 2) v = .ok false) ∧
    ((exRule "GTE" none none (.num 3) 2).value_exact = .null →
      ∀ v, evalMatched (exRule "GTE" none none (.num 3) 2) v = .ok false) ∧
    (∀ thr, pyFloatE (exRule "GTE" none none (.num 3) 2).value_exact = .ok thr → ∀ v,
      evalMatched (exRule "GTE" none none (.num 3) 2) v =
        .ok (((pyFloatE v).toOption.map
          (fun mv => cmpNum (exRule "GTE" none none (.num 3) 2).operator mv thr)).getD false)) :=
  ⟨Or.inr (Or.inr (Or.inr rfl)),
    c2_lt_family _ (Or.inr (Or.inr (Or.inr rfl)))⟩

/-- C2 counterexample to "never raises": an `LT` rule whose `value_exact` is
the non-numeric string `"abc"`; the metric value `1` coerces fine, so the
code reaches `float(rule.value_exact)`, which raises `ValueError`, escaping
`evaluate_rules` entirely. -/
theorem c2_raise_counterexample :
    evaluate_rules (constAdapter (.num 1)) [exRule "LT" none none (.str "abc") 2] =
      .error ⟨"ValueError", "could not convert string to float: abc"⟩ := by
  with_unfolding_all rfl

/-! ## Claim C3: RANGE / BETWEEN semantics -/

/-- C3: a `RANGE`/`BETWEEN` rule evaluated at a null or numeric metric value
never raises, and matches exactly when each set bound is satisfied by the
numeric reading of the value (inclusively); a null value has no numeric
reading, so it never satisfies a set bound, and an unset bound constrains
nothing. -/
theorem c3_range_semantics (r : Rule)
    (hop : r.operator = "RANGE" ∨ r.operator = "BETWEEN")
    (v : Value) (hv : v = .null ∨ (numVal v).isSome) :
    (∃ b, evalMatched r v = .ok b) ∧
    (evalMatched r v = .ok true ↔
      (∀ lo, r.value_low = some lo → ∃ q, numVal v = some q ∧ lo ≤ q) ∧
      (∀ hi, r.value_high = some hi → ∃ q, numVal v = some q ∧ q ≤ hi)) := by
  have hv' : v = .null ∨ (∃ q, v = .num q) ∨ (∃ b, v = .bool b) := by
    rcases hv with h | h
    · exact Or.inl h
    · cases v with
      | num q => exact Or.inr (Or.inl ⟨q, rfl⟩)
      | bool b => exact Or.inr (Or.inr ⟨b, rfl⟩)
      | null => exact Or.inl rfl
      | str s => simp [numVal] at h
      | list l => simp [numVal] at h
  obtain ⟨i, cat, lab, met, op, vlow, vhigh, vex, un, wv, wu, w, ig⟩ := r
  simp only at hop
  constructor
  · rcases hop with h | h <;> subst h <;>
      rcases hv' with rfl | ⟨q, rfl⟩ | ⟨b, rfl⟩ <;>
      cases vlow <;> cases vhigh <;> exact ⟨_, by with_unfolding_all rfl⟩
  · rcases hop with h | h <;> subst h <;>
      rcases hv' with rfl | ⟨q, rfl⟩ | ⟨b, rfl⟩ <;>
      cases vlow <;> cases vhigh <;>
      simp [evalMatched, numVal, pyGeFloat, pyLeFloat, pure, Except.pure, bind, Except.bind]

/-- C3 witness: bounds `[2, 10]` with metric value exactly 2 — the inclusive
lower bound is met, so the rule matches. -/
theorem c3_range_semantics_witness :
    ((exRule "RANGE" (some 2) (some 10) .null 1).operator = "RANGE" ∨
      (exRule "RANGE" (some 2) (some 10) .null 1).operator = "BETWEEN") ∧
    (Value.num 2 = .null ∨ (numVal (.num 2)).isSome) ∧
    ((∃ b, evalMatched (exRule "RANGE" (some 2) (some 10) .null 1) (.num 2) = .ok b) ∧
      (evalMatched (exRule "RANGE" (some 2) (some 10) .null 1) (.num 2) = .ok true ↔
        (∀ lo, (exRule "RANGE" (some 2) (some 10) .null 1).value_low = some lo →
          ∃ q, numVal (.num 2) = some q ∧ lo ≤ q) ∧
        (∀ hi, (exRule "RANGE" (some 2) (some 10) .null 1).value_high = some hi →
          ∃ q, numVal (.num 2) = some q ∧ q ≤ hi))) :=
  ⟨Or.inl rfl, Or.inr rfl,
    c3_range_semantics _ (Or.inl rfl) _ (Or.inr rfl)⟩

/-! ## Structural lemmas about `evaluate_rules` -/

/-- Evaluating a concatenation runs the first part, then the second, adds the
scores and appends the logs; an exception in either part aborts the whole
run. -/
theorem evaluate_rules_append (adapter : Adapter) (l₁ l₂ : List Rule) :
    evaluate_rules adapter (l₁ ++ l₂) =
      (evaluate_rules adapter l₁).bind (fun a =>
        (evaluate_rules adapter l₂).map (fun b => (a.1 + b.1, a.2 ++ b.2))) := by
  induction l₁ with
  | nil =>
    rcases h : evaluate_rules adapter l₂ with e | sl <;>
      simp [evaluate_rules, h, Except.map, Except.bind]
  | cons r rest ih =>
    simp only [List.cons_append, evaluate_rules, List.append_eq]
    rcases hm : adapter r.metric r.window_value r.window_unit with e | v
    · dsimp only
      rw [ih]
      rcases hrest : evaluate_rules adapter rest with e₁ | sl₁ <;>
        rcases h₂ : evaluate_rules adapter l₂ with e₂ | sl₂ <;>
        simp [Except.map, Except.bind]
    · dsimp only
      rcases he : evalMatched r v with e₁ | m
      · simp [he, Except.bind, Except.map, bind]
      · rw [ih]
        rcases hrest : evaluate_rules adapter rest with e₁ | sl₁ <;>
          rcases h₂ : evaluate_rules adapter l₂ with e₂ | sl₂ <;>
          simp [he, Except.map, Except.bind, bind, pure, Except.pure, add_assoc]

/-- A successful run produces one log entry per rule and a total equal to the
sum of the per-rule contributions. -/
theorem evaluate_rules_ok_spec (adapter : Adapter) :
    ∀ (rules : List Rule) (s : Rat) (log : List LogEntry),
      evaluate_rules adapter rules = .ok (s, log) →
      s = (rules.map (ruleScore adapter)).sum ∧ log.length = rules.length := by
  intro rules
  induction rules with
  | nil =>
    intro s log h
    simp only [evaluate_rules, Except.ok.injEq, Prod.mk.injEq] at h
    obtain ⟨rfl, rfl⟩ := h
    simp
  | cons r rest ih =>
    intro s log h
    rcases hm : adapter r.metric r.window_value r.window_unit with e | v
    · have hscore : ruleScore adapter r = 0 := by
        unfold ruleScore; rw [hm]
      rcases hrest : evaluate_rules adapter rest with e₁ | sl₁ <;>
        simp only [evaluate_rules, hm, hrest, Except.map] at h
      · cases h
      · simp only [Except.ok.injEq, Prod.mk.injEq] at h
        obtain ⟨rfl, rfl⟩ := h
        obtain ⟨h1, h2⟩ := ih sl₁.1 sl₁.2 hrest
        simp [hscore, h1, h2]
    · rcases he : evalMatched r v with e₁ | m
      · simp only [evaluate_rules, hm, he, Except.bind, bind] at h
        cases h
      · have hscore : ruleScore adapter r = if m then r.weight else 0 := by
          unfold ruleScore
          rw [hm]
          dsimp only
          rw [he]
        rcases hrest : evaluate_rules adapter rest with e₁ | sl₁ <;>
          simp only [evaluate_rules, hm, he, hrest, Except.bind, bind, pure, Except.pure] at h
        · cases h
        · simp only [Except.ok.injEq, Prod.mk.injEq] at h
          obtain ⟨rfl, rfl⟩ := h
          obtain ⟨h1, h2⟩ := ih sl₁.1 sl₁.2 hrest
          simp [hscore, h1, h2]

/-! ## Claim C5: adapter failures are contained -/

/-- C5: when `get_metric` raises on a rule, the run still produces a log
entry for that rule — with `matched = false`, `weight_applied = 0`, a null
metric value and both the error message and the exception class preserved —
inserted at the rule's position, while the score and every other log entry
are exactly those of the run without the failing rule: evaluation continues
with all subsequent rules and the total is unchanged. -/
theorem c5_metric_failure (adapter : Adapter) (pre post : List Rule) (r : Rule) (e : PyErr)
    (h : adapter r.metric r.window_value r.window_unit = .error e) :
    (evaluate_rules adapter (pre ++ r :: post) =
      (evaluate_rules adapter (pre ++ post)).map
        (fun sl => (sl.1, sl.2.take pre.length ++ mkErrorEntry r e :: sl.2.drop pre.length))) ∧
    (mkErrorEntry r e).matched = false ∧
    (mkErrorEntry r e).weight_applied = 0 ∧
    (mkErrorEntry r e).metric_value = .null ∧
    (mkErrorEntry r e).error = some e.msg ∧
    (mkErrorEntry r e).exception_type = some e.ty := by
  refine ⟨?_, rfl, rfl, rfl, rfl, rfl⟩
  rw [evaluate_rules_append adapter pre (r :: post), evaluate_rules_append adapter pre post]
  have hr : evaluate_rules adapter (r :: post) =
      (evaluate_rules adapter post).map (fun sl => (sl.1, mkErrorEntry r e :: sl.2)) := by
    simp only [evaluate_rules, h]
  rw [hr]
  rcases hpre : evaluate_rules adapter pre with e₁ | sl₁
  · simp [Except.bind, Except.map]
  · have hlen : sl₁.2.length = pre.length :=
      (evaluate_rules_ok_spec adapter pre sl₁.1 sl₁.2 hpre).2
    rcases hpost : evaluate_rules adapter post with e₂ | sl₂
    · simp [Except.bind, Except.map]
    · simp only [Except.bind, Except.map]
      rw [← hlen, List.take_left, List.drop_left]

/-- C5 witness: a three-rule run whose middle rule's metric raises; the error
entry appears in the middle, the other two rules still evaluate, and the
score equals that of the two-rule run. -/
theorem c5_metric_failure_witness :
    exAdapter exBadRule.metric exBadRule.window_value exBadRule.window_unit =
      .error ⟨"RuntimeError", "boom"⟩ ∧
    ((evaluate_rules exAdapter
        ([exRule "EXISTS" none none .null 1] ++ exBadRule :: [exRule "EXISTS" none none .null 2]) =
      (evaluate_rules exAdapter ([exRule "EXISTS" none none .null 1] ++ [exRule "EXISTS" none none .null 2])).map
        (fun sl => (sl.1,
          sl.2.take [exRule "EXISTS" none none .null 1].length ++
            mkErrorEntry exBadRule ⟨"RuntimeError", "boom"⟩ ::
              sl.2.drop [exRule "EXISTS" none none .null 1].length))) ∧
    (mkErrorEntry exBadRule ⟨"RuntimeError", "boom"⟩).matched = false ∧
    (mkErrorEntry exBadRule ⟨"RuntimeError", "boom"⟩).weight_applied = 0 ∧
    (mkErrorEntry exBadRule ⟨"RuntimeError", "boom"⟩).metric_value = .null ∧
    (mkErrorEntry exBadRule ⟨"RuntimeError", "boom"⟩).error = some (PyErr.mk "RuntimeError" "boom").msg ∧
    (mkErrorEntry exBadRule ⟨"RuntimeError", "boom"⟩).exception_type = some (PyErr.mk "RuntimeError" "boom").ty) :=
  ⟨rfl, c5_metric_failure exAdapter _ _ exBadRule ⟨"RuntimeError", "boom"⟩ rfl⟩

/-! ## Claim C6: score is invariant under rule permutation -/

/-- C6: under any adapter (a pure function, hence deterministic), two
successful runs over permuted rule lists produce the same total score — the
score is the sum of per-rule contributions, and sums are invariant under
permutation.  In this model scores are exact rationals, so "within
floating-point tolerance" is exact equality. -/
theorem c6_perm_invariant (adapter : Adapter) (rules rules' : List Rule)
    (hperm : rules.Perm rules') (s s' : Rat) (log log' : List LogEntry)
    (h : evaluate_rules adapter rules = .ok (s, log))
    (h' : evaluate_rules adapter rules' = .ok (s', log')) : s = s' := by
  rw [(evaluate_rules_ok_spec adapter rules s log h).1,
    (evaluate_rules_ok_spec adapter rules' s' log' h').1]
  exact (hperm.map (ruleScore adapter)).sum_eq

/-- C6 witness: swapping two rules (one matching `EXISTS` with weight 1, one
non-matching `MISSING`) leaves the total at 1. -/
theorem c6_perm_invariant_witness :
    ([exRule "EXISTS" none none .null 1, exRule "MISSING" none none .null 2].Perm
      [exRule "MISSING" none none .null 2, exRule "EXISTS" none none .null 1]) ∧
    ∃ s log s' log',
      evaluate_rules (constAdapter (.num 1))
        [exRule "EXISTS" none none .null 1, exRule "MISSING" none none .null 2] = .ok (s, log) ∧
      evaluate_rules (constAdapter (.num 1))
        [exRule "MISSING" none none .null 2, exRule "EXISTS" none none .null 1] = .ok (s', log') ∧
      s = s' := by
  have h1 : evaluate_rules (constAdapter (.num 1))
      [exRule "EXISTS" none none .null 1, exRule "MISSING" none none .null 2] =
      .ok (1,
        [mkOkEntry (exRule "EXISTS" none none .null 1) (.num 1) true 1,
         mkOkEntry (exRule "MISSING" none none .null 2) (.num 1) false 0]) := by
    with_unfolding_all rfl
  have h2 : evaluate_rules (constAdapter (.num 1))
      [exRule "MISSING" none none .null 2, exRule "EXISTS" none none .null 1] =
      .ok (1,
        [mkOkEntry (exRule "MISSING" none none .null 2) (.num 1) false 0,
         mkOkEntry (exRule "EXISTS" none none .null 1) (.num 1) true 1]) := by
    with_unfolding_all rfl
  exact ⟨List.Perm.swap _ _ _, _, _, _, _, h1, h2,
    c6_perm_invariant _ _ _ (List.Perm.swap _ _ _) _ _ _ _ h1 h2⟩

/-! ## Claim C7: missing tables -/

/-- C7: with no rules file present (and no fallback), loading atomic rules
fails with a file-not-found error, while loading business rules succeeds
with the empty collection. -/
theorem c7_missing_tables :
    (∃ e, load_rules_from_csv none = .error e ∧ e.ty = "FileNotFoundError") ∧
    load_business_rules_from_csv none = .ok [] :=
  ⟨⟨⟨"FileNotFoundError", "Rules file not found for provider"⟩, rfl, rfl⟩, rfl⟩

/-! ## Claim C8: value_exact cell parsing -/

/-- A successfully parsed rule row carries exactly the `value_exact` the cell
parser produces. -/
theorem parseRuleRow_value_exact (row : Row) (ru : Rule)
    (h : parseRuleRow row = .ok ru) :
    ru.value_exact = parseValueExact (rowGet row "value_exact") := by
  unfold parseRuleRow at h
  simp only [bind, Except.bind, pure, Except.pure] at h
  repeat' split at h
  all_goals first
    | (injection h with h'; rw [← h']; rfl)
    | cases h
  all_goals rfl

/-- Rules loaded from a present file have `value_exact` given row-wise by the
cell parser. -/
theorem load_rules_value_exact :
    ∀ (rows : List Row) (rules : List Rule), load_rules_from_csv (some rows) = .ok rules →
      rules.map (·.value_exact) =
        rows.map (fun row => parseValueExact (rowGet row "value_exact")) := by
  intro rows
  induction rows with
  | nil =>
    intro rules h
    simp only [load_rules_from_csv, List.mapM_nil, pure, Except.pure, Except.ok.injEq] at h
    subst h
    simp
  | cons row rest ih =>
    intro rules h
    simp only [load_rules_from_csv, List.mapM_cons, bind, Except.bind, pure, Except.pure] at h
    rcases hx : parseRuleRow row with e | ru <;> rw [hx] at h
    · cases h
    · rcases hrest : rest.mapM parseRuleRow with e | rus <;> rw [hrest] at h
      · cases h
      · simp only [Except.ok.injEq] at h
        subst h
        have hih := ih rus (by simp only [load_rules_from_csv]; exact hrest)
        simp only [List.map_cons, hih, List.cons.injEq, and_true]
        exact parseRuleRow_value_exact row ru hx

/-- C8 (amended): the `value_exact` cell is first stripped; an empty result
is null; `TRUE`/`FALSE` case-insensitively give booleans; otherwise a
successful numeric parse gives that number; and on numeric-parse failure the
STRIPPED cell string is retained (not the raw cell text — refuted for raw
text by `c8_strip_counterexample`). -/
theorem c8_value_exact_parsing (cell : String) :
    (∀ rows rules, load_rules_from_csv (some rows) = .ok rules →
      rules.map (·.value_exact) =
        rows.map (fun row => parseValueExact (rowGet row "value_exact"))) ∧
    (pyStrip cell = "" → parseValueExact (some cell) = .null) ∧
    (pyUpper (pyStrip cell) = "TRUE" → parseValueExact (some cell) = .bool true) ∧
    (pyUpper (pyStrip cell) = "FALSE" → parseValueExact (some cell) = .bool false) ∧
    (∀ q, pyUpper (pyStrip cell) ≠ "TRUE" → pyUpper (pyStrip cell) ≠ "FALSE" →
      pyParseFloat (pyStrip cell) = some q → parseValueExact (some cell) = .num q) ∧
    (pyStrip cell ≠ "" → pyUpper (pyStrip cell) ≠ "TRUE" → pyUpper (pyStrip cell) ≠ "FALSE" →
      pyParseFloat (pyStrip cell) = none → parseValueExact (some cell) = .str (pyStrip cell)) := by
  have hempty : pyUpper "" = "" := rfl
  refine ⟨load_rules_value_exact, ?_, ?_, ?_, ?_, ?_⟩
  · intro h
    simp [parseValueExact, h]
  · intro h
    by_cases hr : pyStrip cell = ""
    · rw [hr, hempty] at h
      exact absurd h (by decide)
    · simp [parseValueExact, hr, h]
  · intro h
    by_cases hr : pyStrip cell = ""
    · rw [hr, hempty] at h
      exact absurd h (by decide)
    · simp [parseValueExact, hr, h]
  · intro q hT hF hp
    by_cases hr : pyStrip cell = ""
    · have h0 : pyParseFloat "" = none := rfl
      rw [hr, h0] at hp
      cases hp
    · simp [parseValueExact, hr, hT, hF, hp]
  · intro hr hT hF hp
    simp [parseValueExact, hr, hT, hF, hp]

/-- C8 witness: the cell `" abc "` strips to `"abc"`, is not a boolean token,
fails the numeric parse, and is retained as the stripped string. -/
theorem c8_value_exact_parsing_witness :
    (pyStrip " abc " ≠ "" ∧ pyUpper (pyStrip " abc ") ≠ "TRUE" ∧
      pyUpper (pyStrip " abc ") ≠ "FALSE" ∧ pyParseFloat (pyStrip " abc ") = none) ∧
    parseValueExact (some " abc ") = .str (pyStrip " abc ") := by
  have h1 : pyStrip " abc " ≠ "" := by with_unfolding_all decide
  have h2 : pyUpper (pyStrip " abc ") ≠ "TRUE" := by with_unfolding_all decide
  have h3 : pyUpper (pyStrip " abc ") ≠ "FALSE" := by with_unfolding_all decide
  have h4 : pyParseFloat (pyStrip " abc ") = none := by with_unfolding_all rfl
  exact ⟨⟨h1, h2, h3, h4⟩,
    (c8_value_exact_parsing " abc ").2.2.2.2.2 h1 h2 h3 h4⟩

/-- C8 counterexample to "retained unchanged": the cell `" abc "` is loaded
as the stripped string `"abc"`, which differs from the raw cell text. -/
theorem c8_strip_counterexample :
    (load_rules_from_csv (some [exRow])).map (fun rs => rs.map (·.value_exact)) =
      .ok [.str "abc"] ∧
    Value.str "abc" ≠ Value.str " abc " := by
  constructor
  · with_unfolding_all rfl
  · intro h
    injection h with h2
    exact absurd h2 (by decide)

end RulesEngine
